import Mathlib

/-!
# Verification of the resource-requests admission controller policy engine

Shallow embedding of `config.go` (the `Configurer` policy store: `load`,
`convertLimitsToResources`, `GetPodLimit`, `GetMaxPVCSize`) and
`admission.go` (`handleAdmission`, `validatePodSpec`, and the pod-name
normalization regexes `podIDRegex` and `podID2Regex`).

Modelling conventions:
* A Kubernetes `resource.Quantity` is an arbitrary-precision ordered value;
  it is modelled as `Int` (ordered comparison `Cmp` becomes `<`/`>` on `Int`).
* A textual quantity field of the YAML document is modelled by `QField`:
  the empty string, a string that `resource.ParseQuantity` accepts (carrying
  the parsed value), or a malformed string (parse error).  The Go code only
  ever branches on emptiness and on parse success, so this captures exactly
  the behaviour reachable from `ParseQuantity`.
* Go maps are modelled as association lists with first-match lookup.
* Reading and YAML-unmarshalling of the config file is modelled by
  `LoadInput`: a read error, an unmarshal error, or a decoded `Config`.
* The multi-value Go returns become tuples; `nil` pointers become `none`.
* `handleAdmission`'s result is an `Outcome`: a response with an allow/deny
  verdict, a returned unmarshal error, or a nil-pointer dereference
  (the Go runtime panic reachable in the PVC branch).
-/

namespace RRAC

/-- `NameNamespace` from config.go: name + namespace combination. -/
structure NameNamespace where
  Name : String
  Namespace : String
deriving DecidableEq

/-- A textual quantity field of the YAML document: empty, parseable
(carrying the value `resource.ParseQuantity` yields), or malformed. -/
inductive QField where
  | empty : QField
  | valid (q : Int) : QField
  | malformed : QField
deriving DecidableEq

/-- `Limit` from config.go: one override block of the YAML document. -/
structure Limit where
  CPULimit : QField
  MemLimit : QField
  PVCSize : QField
  Unlimited : Bool
deriving DecidableEq

/-- `Config` from config.go: the decoded YAML document.  The Go maps
`customNamespaces` and `customNames` are modelled as association lists. -/
structure Config where
  Namespaces : List (String × Limit)
  Names : List (NameNamespace × Limit)
  MaxCPULimit : QField
  MaxMemLimit : QField
  MaxPvcSize : QField
deriving DecidableEq

/-- `LimitResource` from config.go: a converted override entry. -/
structure LimitResource where
  CPULimit : Option Int
  MemLimit : Option Int
  PVCSize : Option Int
  Unlimited : Bool
deriving DecidableEq

/-- The policy state of `Configurer` from config.go (the file path, watcher
and mutex are I/O plumbing and carry no policy state). -/
structure Configurer where
  excludedNames : List (NameNamespace × LimitResource)
  excludedNamespaces : List (String × LimitResource)
  maxCPULimit : Option Int
  maxMemLimit : Option Int
  maxPvcSize : Option Int
deriving DecidableEq

/-- The outcome of reading and YAML-unmarshalling the config file in
`Configurer.load`: read error, unmarshal error, or a decoded document. -/
inductive LoadInput where
  | readError : LoadInput
  | yamlError : LoadInput
  | doc (config : Config) : LoadInput

/-- One `switch` block of `Configurer.convertLimitsToResources`: a nonempty
field is parsed (`none` = parse error aborts), an empty field copies the
global value when that is non-nil, and stays nil otherwise. -/
def convertLimitField (globalQ : Option Int) : QField → Option (Option Int)
  | QField.empty => some globalQ
  | QField.valid q => some (some q)
  | QField.malformed => none

/-- `Configurer.convertLimitsToResources` from config.go. -/
def convertLimitsToResources (c : Configurer) (limit : Limit) : Option LimitResource :=
  match convertLimitField c.maxCPULimit limit.CPULimit with
  | none => none
  | some cpu =>
    match convertLimitField c.maxMemLimit limit.MemLimit with
    | none => none
    | some mem =>
      match convertLimitField c.maxPvcSize limit.PVCSize with
      | none => none
      | some pvc => some ⟨cpu, mem, pvc, limit.Unlimited⟩

/-- One global-field block of `Configurer.load`: a nonempty field is parsed
and overwrites the current value (`none` = parse error, early return), an
empty field leaves the current value in place. -/
def loadGlobalField (cur : Option Int) : QField → Option (Option Int)
  | QField.empty => some cur
  | QField.valid q => some (some q)
  | QField.malformed => none

/-- The three global-field blocks of `Configurer.load`, in source order
(CPU, memory, PVC); a parse error returns early with the mutations made so
far kept, mirroring the in-place updates of the Go code. -/
def applyGlobals (c : Configurer) (config : Config) : Configurer × Bool :=
  match loadGlobalField c.maxCPULimit config.MaxCPULimit with
  | none => (c, false)
  | some cpu =>
    let c1 := { c with maxCPULimit := cpu }
    match loadGlobalField c1.maxMemLimit config.MaxMemLimit with
    | none => (c1, false)
    | some mem =>
      let c2 := { c1 with maxMemLimit := mem }
      match loadGlobalField c2.maxPvcSize config.MaxPvcSize with
      | none => (c2, false)
      | some pvc => ({ c2 with maxPvcSize := pvc }, true)

/-- One override-conversion loop of `Configurer.load`: entries are converted
with `convertLimitsToResources` and inserted; a conversion error returns
early, keeping the entries inserted so far. -/
def loadEntries {κ : Type} (c : Configurer) :
    List (κ × Limit) → List (κ × LimitResource) → List (κ × LimitResource) × Bool
  | [], acc => (acc, true)
  | (k, limit) :: rest, acc =>
    match convertLimitsToResources c limit with
    | none => (acc, false)
    | some r => loadEntries c rest (acc ++ [(k, r)])

/-- The body of `Configurer.load` after a successful read and unmarshal:
update globals in place, reset both override maps, then fill them from the
document; any quantity-parse error returns early with whatever in-place
mutations have already happened. -/
def loadDoc (c : Configurer) (config : Config) : Configurer × Bool :=
  match applyGlobals c config with
  | (c1, false) => (c1, false)
  | (c1, true) =>
    let c2 := { c1 with excludedNamespaces := [], excludedNames := [] }
    match loadEntries c2 config.Namespaces [] with
    | (acc, false) => ({ c2 with excludedNamespaces := acc }, false)
    | (acc, true) =>
      let c3 := { c2 with excludedNamespaces := acc }
      match loadEntries c3 config.Names [] with
      | (acc2, false) => ({ c3 with excludedNames := acc2 }, false)
      | (acc2, true) => ({ c3 with excludedNames := acc2 }, true)

/-- `Configurer.load` from config.go: the pair is the state after the call
and the success flag (`false` = an error was returned). -/
def load (c : Configurer) (input : LoadInput) : Configurer × Bool :=
  match input with
  | LoadInput.readError => (c, false)
  | LoadInput.yamlError => (c, false)
  | LoadInput.doc config => loadDoc c config

/-- First-match lookup in an association list, modelling Go map indexing. -/
def lookupKey {κ : Type} [DecidableEq κ] : List (κ × LimitResource) → κ → Option LimitResource
  | [], _ => none
  | (k, v) :: rest, key => if k = key then some v else lookupKey rest key

/-- `Configurer.GetPodLimit` from config.go: `(cpu, mem, unlimited)`. -/
def GetPodLimit (c : Configurer) (nn : NameNamespace) : Option Int × Option Int × Bool :=
  match lookupKey c.excludedNames nn with
  | some limit =>
    if limit.Unlimited then (none, none, true)
    else (limit.CPULimit, limit.MemLimit, false)
  | none =>
    match lookupKey c.excludedNamespaces nn.Namespace with
    | some limit =>
      if limit.Unlimited then (none, none, true)
      else (limit.CPULimit, limit.MemLimit, false)
    | none => (c.maxCPULimit, c.maxMemLimit, false)

/-- `Configurer.GetMaxPVCSize` from config.go: `(pvc, unlimited)`. -/
def GetMaxPVCSize (c : Configurer) (nn : NameNamespace) : Option Int × Bool :=
  match lookupKey c.excludedNames nn with
  | some limit =>
    if limit.Unlimited then (none, true) else (limit.PVCSize, false)
  | none =>
    match lookupKey c.excludedNamespaces nn.Namespace with
    | some limit =>
      if limit.Unlimited then (none, true) else (limit.PVCSize, false)
    | none => (c.maxPvcSize, false)

/-- The character class `[0-9A-Za-z]` of `podIDRegex` and `podID2Regex`. -/
def isAlnumChar (c : Char) : Bool :=
  (decide ('0' ≤ c) && decide (c ≤ '9')) ||
  (decide ('A' ≤ c) && decide (c ≤ 'Z')) ||
  (decide ('a' ≤ c) && decide (c ≤ 'z'))

/-- Whether `-[0-9A-Za-z]+-[0-9A-Za-z]+` matches a prefix of `l` under the
leftmost-greedy semantics of Go's regexp engine: a dash, a maximal nonempty
alphanumeric run, a dash, then at least one alphanumeric character. -/
def twoSegAt (l : List Char) : Bool :=
  match l with
  | c0 :: c1 :: rest =>
    decide (c0 = '-') && isAlnumChar c1 &&
      (match (c1 :: rest).dropWhile isAlnumChar with
       | d0 :: d1 :: _ => decide (d0 = '-') && isAlnumChar d1
       | _ => false)
  | _ => false

/-- Whether `-[0-9A-Za-z]+` matches a prefix of `l`: a dash followed by at
least one alphanumeric character. -/
def oneSegAt (l : List Char) : Bool :=
  match l with
  | c0 :: c1 :: _ => decide (c0 = '-') && isAlnumChar c1
  | _ => false

/-- Greedy capture of `(.*)` before a suffix pattern `p`: the longest
prefix whose remainder satisfies `p`, which is what Go's
`FindStringSubmatch` assigns to group 1 of `(.*)(suffix)`. -/
def longestSplit (p : List Char → Bool) : List Char → Option (List Char)
  | [] => none
  | c :: rest =>
    match longestSplit p rest with
    | some stem => some (c :: stem)
    | none => if p (c :: rest) then some [] else none

/-- The pod-name normalization of `handleAdmission` (admission.go lines
113-122): group 1 of `podIDRegex` when it matches, otherwise group 1 of
`podID2Regex` when that matches, otherwise the name unchanged. -/
def stripPodName (s : String) : String :=
  match longestSplit twoSegAt s.data with
  | some stem => ⟨stem⟩
  | none =>
    match longestSplit oneSegAt s.data with
    | some stem => ⟨stem⟩
    | none => s

/-- A `corev1.ResourceList` restricted to the entries the code reads:
optional cpu and memory quantities (`none` = key absent). -/
structure ResourceList where
  cpu : Option Int
  memory : Option Int
deriving DecidableEq

/-- `ResourceList.Cpu()` of the Kubernetes API: the cpu entry, or the zero
quantity when the entry is absent. -/
def ResourceList.cpuVal (r : ResourceList) : Int := r.cpu.getD 0

/-- `ResourceList.Memory()` of the Kubernetes API: the memory entry, or the
zero quantity when the entry is absent. -/
def ResourceList.memoryVal (r : ResourceList) : Int := r.memory.getD 0

/-- A container of a pod spec: name plus `Resources.Requests` and
`Resources.Limits`. -/
structure Container where
  Name : String
  Requests : ResourceList
  Limits : ResourceList
deriving DecidableEq

/-- A `corev1.PodSpec` restricted to the fields the code reads. -/
structure PodSpec where
  Containers : List Container
  InitContainers : List Container
deriving DecidableEq

/-- Which check of `validatePodSpec` produced the denial. -/
inductive Violation where
  | cpuRequestEmpty : Violation
  | memRequestEmpty : Violation
  | cpuRequestPositive : Violation
  | memRequestPositive : Violation
  | cpuLimitExceeded : Violation
  | memLimitExceeded : Violation
deriving DecidableEq

/-- The loop of `ResourceRequestsAdmission.validatePodSpec` (admission.go
lines 280-339): per container, in source order, the first failing check
returns a deny response naming the container; falling through the loop
returns nil. -/
def validateContainers (cpuLimit memLimit : Option Int) :
    List Container → Option (String × Violation)
  | [] => none
  | container :: rest =>
    if container.Requests.cpu.isNone then
      some (container.Name, Violation.cpuRequestEmpty)
    else if container.Requests.memory.isNone then
      some (container.Name, Violation.memRequestEmpty)
    else if 0 < container.Requests.cpuVal then
      some (container.Name, Violation.cpuRequestPositive)
    else if 0 < container.Requests.memoryVal then
      some (container.Name, Violation.memRequestPositive)
    else if (match cpuLimit with
             | some l => decide (l < container.Limits.cpuVal)
             | none => false) then
      some (container.Name, Violation.cpuLimitExceeded)
    else if (match memLimit with
             | some l => decide (l < container.Limits.memoryVal)
             | none => false) then
      some (container.Name, Violation.memLimitExceeded)
    else validateContainers cpuLimit memLimit rest

/-- `ResourceRequestsAdmission.validatePodSpec` from admission.go: `none`
models the nil response (workload accepted). -/
def validatePodSpec (podSpec : PodSpec) (cpuLimit memLimit : Option Int) :
    Option (String × Violation) :=
  validateContainers cpuLimit memLimit podSpec.Containers

/-- The recognized pod-template workload kinds of the `handleAdmission`
switch; each branch extracts the embedded pod spec and runs
`validatePodSpec` on it, the pod branch alone normalizing the name first. -/
inductive WorkloadKind where
  | pod : WorkloadKind
  | deployment : WorkloadKind
  | statefulset : WorkloadKind
  | daemonset : WorkloadKind
  | job : WorkloadKind
  | cronJob : WorkloadKind
deriving DecidableEq

/-- `req.Operation` restricted to the cases the code distinguishes. -/
inductive Operation where
  | create : Operation
  | update : Operation
  | delete : Operation
  | connect : Operation
deriving DecidableEq

/-- The decoded `req.Object.Raw` together with `req.Kind.Kind`: a
pod-template workload (kind, name, embedded pod spec), a persistent volume
claim (name, requested storage size or absent), a body whose JSON unmarshal
fails, or a kind outside the switch. -/
inductive ReqObject where
  | workload (kind : WorkloadKind) (name : String) (spec : PodSpec) : ReqObject
  | pvc (name : String) (requestedStorage : Option Int) : ReqObject
  | undecodable : ReqObject
  | unrecognized : ReqObject
deriving DecidableEq

/-- The fields of `v1beta1.AdmissionRequest` the code reads. -/
structure AdmissionRequest where
  uid : String
  operation : Operation
  namespaceName : String
  object : ReqObject
deriving DecidableEq

/-- The result of `handleAdmission`: a response with its allow/deny verdict,
a returned unmarshal error, or a nil-pointer dereference (the Go panic
reachable when `GetMaxPVCSize` returns nil and a size is declared). -/
inductive Outcome where
  | resp (allowed : Bool) : Outcome
  | errResult : Outcome
  | nilDeref : Outcome
deriving DecidableEq

/-- The lookup name used by the workload branches: the pod branch strips
the generated suffix, the other branches use the object name as is. -/
def workloadLookupName (kind : WorkloadKind) (name : String) : String :=
  if kind = WorkloadKind.pod then stripPodName name else name

/-- `ResourceRequestsAdmission.handleAdmission` from admission.go.  The
exported `HandleAdmission` wrapper only adds metric counting and logging
around this function and returns its response and error unchanged. -/
def handleAdmission (conf : Configurer) (req : AdmissionRequest) : Outcome :=
  if req.operation ≠ Operation.create ∧ req.operation ≠ Operation.update then
    Outcome.resp true
  else
    match req.object with
    | ReqObject.workload kind name spec =>
      let (cpu, mem, unlimited) :=
        GetPodLimit conf ⟨workloadLookupName kind name, req.namespaceName⟩
      if unlimited then Outcome.resp true
      else
        match validatePodSpec spec cpu mem with
        | some _ => Outcome.resp false
        | none => Outcome.resp true
    | ReqObject.pvc name requestedStorage =>
      let (maxSize, unlimited) := GetMaxPVCSize conf ⟨name, req.namespaceName⟩
      if unlimited then Outcome.resp true
      else
        match requestedStorage with
        | none => Outcome.resp false
        | some vSize =>
          match maxSize with
          | none => Outcome.nilDeref
          | some m => if m < vSize then Outcome.resp false else Outcome.resp true
    | ReqObject.undecodable => Outcome.errResult
    | ReqObject.unrecognized => Outcome.resp true

/-! ## Shared example values used by witnesses and counterexamples -/

/-- A `Configurer` with no overrides and no global ceilings (the state of a
fresh `Configurer` before any load). -/
def confEmpty : Configurer := ⟨[], [], none, none, none⟩

/-- A `Configurer` with only a global PVC-size ceiling of 10. -/
def confPvc10 : Configurer := ⟨[], [], none, none, some 10⟩

/-- A document whose global CPU and memory limits both parse to 1. -/
def docCpu1Mem1 : Config := ⟨[], [], QField.valid 1, QField.valid 1, QField.empty⟩

/-- A document whose global CPU limit parses to 2 and whose global memory
limit is a malformed quantity string. -/
def docCpu2MemBad : Config := ⟨[], [], QField.valid 2, QField.malformed, QField.empty⟩

/-- A document whose global CPU limit parses to 5, other fields omitted. -/
def docCpu5 : Config := ⟨[], [], QField.valid 5, QField.empty, QField.empty⟩

/-- A document omitting every field. -/
def docEmpty : Config := ⟨[], [], QField.empty, QField.empty, QField.empty⟩

/-! ## C1 -/

/-- C1 counterexample: after a successful load of a document with global
CPU = 1 and memory = 1, a second load whose CPU field parses to 2 but whose
memory field is malformed FAILS, yet `GetPodLimit` afterwards returns
CPU = 2 — the failed load did perform a partial update to the shared
policy state, contradicting the claim. -/
theorem c1_no_partial_update_cex :
    (load confEmpty (LoadInput.doc docCpu1Mem1)).2 = true ∧
    (load (load confEmpty (LoadInput.doc docCpu1Mem1)).1 (LoadInput.doc docCpu2MemBad)).2 = false ∧
    GetPodLimit (load confEmpty (LoadInput.doc docCpu1Mem1)).1 ⟨"x", "y"⟩
      = (some 1, some 1, false) ∧
    GetPodLimit (load (load confEmpty (LoadInput.doc docCpu1Mem1)).1
        (LoadInput.doc docCpu2MemBad)).1 ⟨"x", "y"⟩
      = (some 2, some 1, false) := by decide

/-- C1 (amended): a failed load leaves the policy state untouched only when
the failure is an unreadable file or a YAML unmarshal error; then
`GetPodLimit` and `GetMaxPVCSize` return exactly their pre-load values for
every target.  (A quantity-parse failure can instead leave earlier-parsed
global fields updated and the override tables cleared or partially rebuilt,
as the counterexample shows.) -/
theorem c1_failed_load_amended (c : Configurer) :
    load c LoadInput.readError = (c, false) ∧
    load c LoadInput.yamlError = (c, false) ∧
    (∀ nn, GetPodLimit (load c LoadInput.readError).1 nn = GetPodLimit c nn) ∧
    (∀ nn, GetMaxPVCSize (load c LoadInput.yamlError).1 nn = GetMaxPVCSize c nn) :=
  ⟨rfl, rfl, fun _ => rfl, fun _ => rfl⟩

/-! ## C3 -/

/-- C3: resolution precedence.  If an exact (name, namespace) entry exists,
both `GetPodLimit` and `GetMaxPVCSize` are fully determined by that entry
(the namespace table and the globals are not consulted); otherwise, if a
namespace-wide entry exists, they are fully determined by it; otherwise the
global ceilings apply. -/
theorem c3_precedence (c : Configurer) (nn : NameNamespace) (l : LimitResource) :
    (lookupKey c.excludedNames nn = some l →
      GetPodLimit c nn =
        (if l.Unlimited then (none, none, true) else (l.CPULimit, l.MemLimit, false)) ∧
      GetMaxPVCSize c nn =
        (if l.Unlimited then (none, true) else (l.PVCSize, false))) ∧
    (lookupKey c.excludedNames nn = none →
      lookupKey c.excludedNamespaces nn.Namespace = some l →
      GetPodLimit c nn =
        (if l.Unlimited then (none, none, true) else (l.CPULimit, l.MemLimit, false)) ∧
      GetMaxPVCSize c nn =
        (if l.Unlimited then (none, true) else (l.PVCSize, false))) ∧
    (lookupKey c.excludedNames nn = none →
      lookupKey c.excludedNamespaces nn.Namespace = none →
      GetPodLimit c nn = (c.maxCPULimit, c.maxMemLimit, false) ∧
      GetMaxPVCSize c nn = (c.maxPvcSize, false)) := by
  refine ⟨fun h => ?_, fun h1 h2 => ?_, fun h1 h2 => ?_⟩
  · simp [GetPodLimit, GetMaxPVCSize, h]
  · simp [GetPodLimit, GetMaxPVCSize, h1, h2]
  · simp [GetPodLimit, GetMaxPVCSize, h1, h2]

/-- A `Configurer` with an exact-name entry, a namespace entry and globals,
all distinct, exercising the precedence theorem. -/
def confLayered : Configurer :=
  ⟨[(⟨"a", "n"⟩, ⟨some 1, some 2, some 3, false⟩)],
   [("n", ⟨some 7, some 8, some 9, false⟩)],
   some 4, some 5, some 6⟩

/-- C3 witness: on `confLayered`, the exact entry's ceilings (1, 2, 3)
govern the target ("a", "n"). -/
theorem c3_precedence_witness :
    GetPodLimit confLayered ⟨"a", "n"⟩ = (some 1, some 2, false) ∧
    GetMaxPVCSize confLayered ⟨"a", "n"⟩ = (some 3, false) := by
  have h := (c3_precedence confLayered ⟨"a", "n"⟩
    ⟨some 1, some 2, some 3, false⟩).1 (by decide)
  simpa using h

/-! ## C2 -/

/-- The six per-container rules of the validation algorithm, in the order
the specification states them: absent CPU request, absent memory request,
CPU request greater than zero, memory request greater than zero, declared
CPU limit above a defined CPU ceiling, declared memory limit above a
defined memory ceiling.  (Stated from the spec, for comparison with the
source-derived `validateContainers`.) -/
def containerRules (cpuLimit memLimit : Option Int) : List (Container → Option Violation) :=
  [fun container =>
      if container.Requests.cpu.isNone then some Violation.cpuRequestEmpty else none,
   fun container =>
      if container.Requests.memory.isNone then some Violation.memRequestEmpty else none,
   fun container =>
      if 0 < container.Requests.cpuVal then some Violation.cpuRequestPositive else none,
   fun container =>
      if 0 < container.Requests.memoryVal then some Violation.memRequestPositive else none,
   fun container =>
      if (match cpuLimit with
          | some l => decide (l < container.Limits.cpuVal)
          | none => false) then some Violation.cpuLimitExceeded else none,
   fun container =>
      if (match memLimit with
          | some l => decide (l < container.Limits.memoryVal)
          | none => false) then some Violation.memLimitExceeded else none]

/-- The first rule a container violates, in the stated order. -/
def firstContainerViolation (cpuLimit memLimit : Option Int) (container : Container) :
    Option Violation :=
  (containerRules cpuLimit memLimit).findSome? fun rule => rule container

/-- The specification's validation algorithm: scan the containers in
sequence order and report the first violation of the first offending
container, or accept. -/
def specFirstViolation (podSpec : PodSpec) (cpuLimit memLimit : Option Int) :
    Option (String × Violation) :=
  podSpec.Containers.findSome? fun container =>
    (firstContainerViolation cpuLimit memLimit container).map fun v => (container.Name, v)

theorem validateContainers_cons (cpuLimit memLimit : Option Int) (container : Container)
    (rest : List Container) :
    validateContainers cpuLimit memLimit (container :: rest) =
      match firstContainerViolation cpuLimit memLimit container with
      | some v => some (container.Name, v)
      | none => validateContainers cpuLimit memLimit rest := by
  simp only [validateContainers, firstContainerViolation, containerRules, List.findSome?]
  split_ifs <;> rfl

theorem validateContainers_eq_findSome (cpuLimit memLimit : Option Int)
    (cs : List Container) :
    validateContainers cpuLimit memLimit cs =
      cs.findSome? fun container =>
        (firstContainerViolation cpuLimit memLimit container).map fun v =>
          (container.Name, v) := by
  induction cs with
  | nil => rfl
  | cons container rest ih =>
    rw [List.findSome?_cons, validateContainers_cons]
    cases h : firstContainerViolation cpuLimit memLimit container with
    | some v => simp [h]
    | none => simp [h, ih]

/-- C2: under a non-unlimited resolution, `validatePodSpec` equals the
specification's algorithm — containers scanned in sequence order, each
checked against the six rules in the stated order, first violation wins and
exactly one violation is reported — and the workload is accepted by
`handleAdmission` exactly when no container violates any rule. -/
theorem c2_first_violation (podSpec : PodSpec) (cpuLimit memLimit : Option Int) :
    validatePodSpec podSpec cpuLimit memLimit = specFirstViolation podSpec cpuLimit memLimit ∧
    (∀ (conf : Configurer) (uid ns : String) (op : Operation)
       (kind : WorkloadKind) (name : String),
      (op = Operation.create ∨ op = Operation.update) →
      (GetPodLimit conf ⟨workloadLookupName kind name, ns⟩).2.2 = false →
      (handleAdmission conf ⟨uid, op, ns, ReqObject.workload kind name podSpec⟩ =
          Outcome.resp true ↔
        validatePodSpec podSpec
          (GetPodLimit conf ⟨workloadLookupName kind name, ns⟩).1
          (GetPodLimit conf ⟨workloadLookupName kind name, ns⟩).2.1 = none)) := by
  constructor
  · exact validateContainers_eq_findSome cpuLimit memLimit podSpec.Containers
  · intro conf uid ns op kind name hop hunl
    have hopn : ¬(op ≠ Operation.create ∧ op ≠ Operation.update) := by
      rcases hop with h | h <;> subst h <;> simp
    obtain ⟨cpu, mem, u, hg⟩ : ∃ cpu mem u,
        GetPodLimit conf ⟨workloadLookupName kind name, ns⟩ = (cpu, mem, u) :=
      ⟨_, _, _, rfl⟩
    rw [hg] at hunl
    simp only at hunl
    subst hunl
    simp only [handleAdmission, hg, if_neg hopn]
    cases h : validatePodSpec podSpec cpu mem <;> simp [h]

/-- A compliant container: zero requests, limits 1 under the ceilings. -/
def demoSpec : PodSpec := ⟨[⟨"app", ⟨some 0, some 0⟩, ⟨some 1, some 1⟩⟩], []⟩

/-- C2 witness: the loop and the spec algorithm agree on a concrete spec,
and that spec is accepted exactly because no container violates a rule. -/
theorem c2_first_violation_witness :
    validatePodSpec demoSpec (some 2) (some 2) =
      specFirstViolation demoSpec (some 2) (some 2) ∧
    (handleAdmission confLayered
        ⟨"u", Operation.create, "n",
          ReqObject.workload WorkloadKind.deployment "a" demoSpec⟩ = Outcome.resp true ↔
      validatePodSpec demoSpec
        (GetPodLimit confLayered ⟨workloadLookupName WorkloadKind.deployment "a", "n"⟩).1
        (GetPodLimit confLayered
          ⟨workloadLookupName WorkloadKind.deployment "a", "n"⟩).2.1 = none) :=
  ⟨(c2_first_violation demoSpec (some 2) (some 2)).1,
   (c2_first_violation demoSpec none none).2 confLayered "u" "n" Operation.create
      WorkloadKind.deployment "a" (Or.inl rfl) (by decide)⟩

/-! ## C5 -/

/-- The `NameNamespace` under which `handleAdmission` resolves the request:
the (possibly stripped) workload name, or the claim name, with the request
namespace; `none` for bodies that reach no lookup. -/
def requestTarget (req : AdmissionRequest) : Option NameNamespace :=
  match req.object with
  | ReqObject.workload kind name _ =>
    some ⟨workloadLookupName kind name, req.namespaceName⟩
  | ReqObject.pvc name _ => some ⟨name, req.namespaceName⟩
  | ReqObject.undecodable => none
  | ReqObject.unrecognized => none

theorem getPodLimit_of_unlimited {c : Configurer} {nn : NameNamespace}
    (h : (∃ l, lookupKey c.excludedNames nn = some l ∧ l.Unlimited = true) ∨
         (lookupKey c.excludedNames nn = none ∧
          ∃ l, lookupKey c.excludedNamespaces nn.Namespace = some l ∧ l.Unlimited = true)) :
    GetPodLimit c nn = (none, none, true) ∧ GetMaxPVCSize c nn = (none, true) := by
  rcases h with ⟨l, hl, hu⟩ | ⟨hn, l, hl, hu⟩
  · simp [GetPodLimit, GetMaxPVCSize, hl, hu]
  · simp [GetPodLimit, GetMaxPVCSize, hn, hl, hu]

/-- C5: when the resolved override of the request's target (exact match, or
namespace-wide match when no exact match exists) carries the unlimited
flag, `handleAdmission` allows the request whatever the body: any
containers (absent requests, nonzero requests, limits above any ceiling)
and PVCs of any size. -/
theorem c5_unlimited_allows (conf : Configurer) (req : AdmissionRequest)
    (nn : NameNamespace) (htgt : requestTarget req = some nn)
    (hunl : (∃ l, lookupKey conf.excludedNames nn = some l ∧ l.Unlimited = true) ∨
            (lookupKey conf.excludedNames nn = none ∧
             ∃ l, lookupKey conf.excludedNamespaces nn.Namespace = some l ∧
               l.Unlimited = true)) :
    handleAdmission conf req = Outcome.resp true := by
  obtain ⟨hpod, hpvc⟩ := getPodLimit_of_unlimited hunl
  unfold handleAdmission
  split
  · rfl
  · cases hobj : req.object with
    | workload kind name spec =>
      have : nn = ⟨workloadLookupName kind name, req.namespaceName⟩ := by
        simp [requestTarget, hobj] at htgt
        exact htgt.symm
      subst this
      simp [hpod]
    | pvc name storage =>
      have : nn = ⟨name, req.namespaceName⟩ := by
        simp [requestTarget, hobj] at htgt
        exact htgt.symm
      subst this
      simp [hpvc]
    | undecodable => simp [requestTarget, hobj] at htgt
    | unrecognized => simp [requestTarget, hobj] at htgt

/-- A `Configurer` whose namespace entry for "free" is unlimited. -/
def confFree : Configurer :=
  ⟨[], [("free", ⟨none, none, none, true⟩)], some 1, some 1, some 1⟩

/-- A container with nonzero requests and limits above every ceiling. -/
def bigContainer : Container :=
  ⟨"big", ⟨some 5, some 5⟩, ⟨some 100, some 100⟩⟩

/-- C5 witness: in the unlimited namespace "free", a pod with nonzero
requests and huge limits, and a 1000-unit PVC, are both allowed. -/
theorem c5_unlimited_allows_witness :
    handleAdmission confFree
      ⟨"u", Operation.create, "free",
        ReqObject.workload WorkloadKind.pod "big-pod" ⟨[bigContainer], []⟩⟩
      = Outcome.resp true ∧
    handleAdmission confFree
      ⟨"u", Operation.update, "free", ReqObject.pvc "big-claim" (some 1000)⟩
      = Outcome.resp true :=
  ⟨c5_unlimited_allows confFree _ ⟨stripPodName "big-pod", "free"⟩ rfl
      (Or.inr ⟨by decide, ⟨none, none, none, true⟩, by decide, rfl⟩),
   c5_unlimited_allows confFree _ ⟨"big-claim", "free"⟩ rfl
      (Or.inr ⟨by decide, ⟨none, none, none, true⟩, by decide, rfl⟩)⟩

/-! ## C6 -/

/-- C6 counterexample: with a global storage ceiling of 10 defined, a PVC
create request that declares NO requested size is denied by the code
("size is empty"), while the claim requires acceptance (pass-through). -/
theorem c6_pvc_claim_cex :
    handleAdmission confPvc10
      ⟨"u", Operation.create, "ns", ReqObject.pvc "p" none⟩ = Outcome.resp false ∧
    handleAdmission confPvc10
      ⟨"u", Operation.create, "ns", ReqObject.pvc "p" none⟩ ≠ Outcome.resp true := by
  decide

/-- C6 (amended): for a create/update storage-claim request whose resolution
is not unlimited: a claim declaring no size is REJECTED; when a storage
ceiling is defined, a declared size is rejected exactly when it strictly
exceeds the ceiling (equality is accepted); and when no ceiling is defined
but a size is declared, the code dereferences the nil ceiling (no
pass-through acceptance occurs). -/
theorem c6_pvc_amended (conf : Configurer) (uid ns name : String) (op : Operation)
    (hop : op = Operation.create ∨ op = Operation.update)
    (storage : Option Int)
    (hunl : (GetMaxPVCSize conf ⟨name, ns⟩).2 = false) :
    (storage = none →
      handleAdmission conf ⟨uid, op, ns, ReqObject.pvc name storage⟩ = Outcome.resp false) ∧
    (∀ v m, storage = some v → (GetMaxPVCSize conf ⟨name, ns⟩).1 = some m →
      (handleAdmission conf ⟨uid, op, ns, ReqObject.pvc name storage⟩ = Outcome.resp false
        ↔ m < v) ∧
      (v ≤ m →
        handleAdmission conf ⟨uid, op, ns, ReqObject.pvc name storage⟩ = Outcome.resp true)) ∧
    (∀ v, storage = some v → (GetMaxPVCSize conf ⟨name, ns⟩).1 = none →
      handleAdmission conf ⟨uid, op, ns, ReqObject.pvc name storage⟩ = Outcome.nilDeref) := by
  have hopn : ¬(op ≠ Operation.create ∧ op ≠ Operation.update) := by
    rcases hop with h | h <;> subst h <;> simp
  obtain ⟨m0, u0⟩ : ∃ m0 u0, GetMaxPVCSize conf ⟨name, ns⟩ = (m0, u0) :=
    ⟨_, _, rfl⟩
  refine ⟨fun hs => ?_, fun v m hs hmc => ?_, fun v hs hm => ?_⟩
  · subst hs
    simp [handleAdmission, hopn, hunl]
  · subst hs
    constructor
    · constructor
      · intro hres
        by_contra hlt
        simp [handleAdmission, hopn, hunl, hmc, not_lt.mp hlt] at hres
      · intro hlt
        simp [handleAdmission, hopn, hunl, hmc, hlt]
    · intro hle
      simp [handleAdmission, hopn, hunl, hmc, not_lt.mpr hle]
  · subst hs
    simp [handleAdmission, hopn, hunl, hm]

/-- C6 witness: with a ceiling of 10, a declared size of 10 is accepted, a
declared size of 11 is rejected, and an absent size is rejected. -/
theorem c6_pvc_amended_witness :
    handleAdmission confPvc10
      ⟨"u", Operation.create, "ns", ReqObject.pvc "p" (some 10)⟩ = Outcome.resp true ∧
    handleAdmission confPvc10
      ⟨"u", Operation.create, "ns", ReqObject.pvc "p" (some 11)⟩ = Outcome.resp false ∧
    handleAdmission confPvc10
      ⟨"u", Operation.create, "ns", ReqObject.pvc "p" none⟩ = Outcome.resp false := by
  refine ⟨?_, ?_, ?_⟩
  · exact ((c6_pvc_amended confPvc10 "u" "ns" "p" Operation.create (Or.inl rfl)
      (some 10) (by decide)).2.1 10 10 rfl (by decide)).2 (by decide)
  · exact ((c6_pvc_amended confPvc10 "u" "ns" "p" Operation.create (Or.inl rfl)
      (some 11) (by decide)).2.1 11 10 rfl (by decide)).1.mpr (by decide)
  · exact (c6_pvc_amended confPvc10 "u" "ns" "p" Operation.create (Or.inl rfl)
      none (by decide)).1 rfl

/-! ## C7 -/

/-- C7: with no storage ceiling configured anywhere, `GetMaxPVCSize`
returns nil with unlimited false, and the storage-claim branch of
`handleAdmission` then dereferences the nil ceiling when the claim does
declare a size — the nil-pointer panic the claim asserts cannot happen. -/
theorem c7_pvc_nil_deref :
    GetMaxPVCSize confEmpty ⟨"p", "ns"⟩ = (none, false) ∧
    handleAdmission confEmpty
      ⟨"u", Operation.create, "ns", ReqObject.pvc "p" (some 1)⟩ = Outcome.nilDeref := by
  decide

/-! ## C8 -/

/-- C8 counterexample: a successful load of a document with global CPU = 5,
followed by a successful load of a document that OMITS every global field,
leaves the global CPU ceiling at 5 — the omitted field does not resolve to
"no ceiling"; the old generation's field is retained. -/
theorem c8_globals_cex :
    (load confEmpty (LoadInput.doc docCpu5)).2 = true ∧
    (load (load confEmpty (LoadInput.doc docCpu5)).1 (LoadInput.doc docEmpty)).2 = true ∧
    (load (load confEmpty (LoadInput.doc docCpu5)).1 (LoadInput.doc docEmpty)).1.maxCPULimit
      = some 5 ∧
    (load (load confEmpty (LoadInput.doc docCpu5)).1 (LoadInput.doc docEmpty)).1.maxCPULimit
      ≠ none := by
  decide

/-! ## C10 -/

/-- C10: the decision for a pod-template workload depends only on the pod
spec's `Containers` sequence — two specs with equal `Containers` (however
their init containers differ) get identical outcomes — and a spec with no
containers is always accepted. -/
theorem c10_containers_only :
    (∀ (conf : Configurer) (uid : String) (op : Operation) (ns : String)
       (kind : WorkloadKind) (name : String) (s1 s2 : PodSpec),
       s1.Containers = s2.Containers →
       handleAdmission conf ⟨uid, op, ns, ReqObject.workload kind name s1⟩ =
         handleAdmission conf ⟨uid, op, ns, ReqObject.workload kind name s2⟩) ∧
    (∀ (conf : Configurer) (uid : String) (op : Operation) (ns : String)
       (kind : WorkloadKind) (name : String) (s : PodSpec),
       s.Containers = [] →
       handleAdmission conf ⟨uid, op, ns, ReqObject.workload kind name s⟩ =
         Outcome.resp true) := by
  constructor
  · intro conf uid op ns kind name s1 s2 h
    simp only [handleAdmission, validatePodSpec, h]
  · intro conf uid op ns kind name s h
    simp only [handleAdmission, validatePodSpec, h, validateContainers]
    split
    · rfl
    · split <;> rfl

/-- A pod spec with no containers but a resource-hungry init container. -/
def initOnlySpec : PodSpec := ⟨[], [bigContainer]⟩

/-- C10 witness: a spec with an oversized init container and a spec with no
init containers get the same (allow) decision, and the empty-containers
spec is accepted. -/
theorem c10_containers_only_witness :
    handleAdmission confPvc10
      ⟨"u", Operation.create, "ns", ReqObject.workload WorkloadKind.deployment "d" initOnlySpec⟩ =
      handleAdmission confPvc10
        ⟨"u", Operation.create, "ns", ReqObject.workload WorkloadKind.deployment "d" ⟨[], []⟩⟩ ∧
    handleAdmission confPvc10
      ⟨"u", Operation.create, "ns", ReqObject.workload WorkloadKind.deployment "d" initOnlySpec⟩ =
      Outcome.resp true :=
  ⟨c10_containers_only.1 confPvc10 "u" Operation.create "ns" WorkloadKind.deployment "d"
      initOnlySpec ⟨[], []⟩ rfl,
   c10_containers_only.2 confPvc10 "u" Operation.create "ns" WorkloadKind.deployment "d"
      initOnlySpec rfl⟩

/-! ## Load-path lemmas (shared by C4 and C8) -/

theorem applyGlobals_success {c c1 : Configurer} {config : Config}
    (h : applyGlobals c config = (c1, true)) :
    c1.excludedNames = c.excludedNames ∧
    c1.excludedNamespaces = c.excludedNamespaces ∧
    (config.MaxCPULimit = QField.empty → c1.maxCPULimit = c.maxCPULimit) ∧
    (∀ q, config.MaxCPULimit = QField.valid q → c1.maxCPULimit = some q) ∧
    (config.MaxMemLimit = QField.empty → c1.maxMemLimit = c.maxMemLimit) ∧
    (∀ q, config.MaxMemLimit = QField.valid q → c1.maxMemLimit = some q) ∧
    (config.MaxPvcSize = QField.empty → c1.maxPvcSize = c.maxPvcSize) ∧
    (∀ q, config.MaxPvcSize = QField.valid q → c1.maxPvcSize = some q) := by
  cases hc : config.MaxCPULimit <;> cases hm : config.MaxMemLimit <;>
    cases hp : config.MaxPvcSize <;>
      simp_all [applyGlobals, loadGlobalField] <;>
        (try subst h) <;> simp_all

theorem convertLimitsToResources_fields {c : Configurer} {limit : Limit} {r : LimitResource}
    (h : convertLimitsToResources c limit = some r) :
    (limit.CPULimit = QField.empty → r.CPULimit = c.maxCPULimit) ∧
    (∀ q, limit.CPULimit = QField.valid q → r.CPULimit = some q) ∧
    (limit.MemLimit = QField.empty → r.MemLimit = c.maxMemLimit) ∧
    (∀ q, limit.MemLimit = QField.valid q → r.MemLimit = some q) ∧
    (limit.PVCSize = QField.empty → r.PVCSize = c.maxPvcSize) ∧
    (∀ q, limit.PVCSize = QField.valid q → r.PVCSize = some q) ∧
    r.Unlimited = limit.Unlimited := by
  cases hc : limit.CPULimit <;> cases hm : limit.MemLimit <;> cases hp : limit.PVCSize <;>
    simp_all [convertLimitsToResources, convertLimitField] <;>
      (try subst h) <;> simp_all

theorem convertLimitsToResources_globals (c c2 : Configurer)
    (h1 : c.maxCPULimit = c2.maxCPULimit) (h2 : c.maxMemLimit = c2.maxMemLimit)
    (h3 : c.maxPvcSize = c2.maxPvcSize) (limit : Limit) :
    convertLimitsToResources c limit = convertLimitsToResources c2 limit := by
  simp [convertLimitsToResources, h1, h2, h3]

theorem loadEntries_globals {κ : Type} (c c2 : Configurer)
    (h1 : c.maxCPULimit = c2.maxCPULimit) (h2 : c.maxMemLimit = c2.maxMemLimit)
    (h3 : c.maxPvcSize = c2.maxPvcSize) :
    ∀ (es : List (κ × Limit)) (acc : List (κ × LimitResource)),
      loadEntries c es acc = loadEntries c2 es acc
  | [], _ => rfl
  | (k, limit) :: rest, acc => by
    simp only [loadEntries, convertLimitsToResources_globals c c2 h1 h2 h3 limit]
    cases convertLimitsToResources c2 limit with
    | none => rfl
    | some r => exact loadEntries_globals c c2 h1 h2 h3 rest (acc ++ [(k, r)])

theorem loadEntries_acc_subset {κ : Type} {c : Configurer} :
    ∀ {es : List (κ × Limit)} {acc res : List (κ × LimitResource)} {b : Bool},
      loadEntries c es acc = (res, b) → ∀ x ∈ acc, x ∈ res := by
  intro es
  induction es with
  | nil => intro acc res b h x hx; cases h; exact hx
  | cons e rest ih =>
    intro acc res b h x hx
    obtain ⟨k, limit⟩ := e
    simp only [loadEntries] at h
    cases hc : convertLimitsToResources c limit with
    | none => rw [hc] at h; cases h; exact hx
    | some r =>
      rw [hc] at h
      exact ih h x (List.mem_append_left _ hx)

theorem loadEntries_mem {κ : Type} {c : Configurer} :
    ∀ {es : List (κ × Limit)} {acc res : List (κ × LimitResource)},
      loadEntries c es acc = (res, true) →
      ∀ k limit, (k, limit) ∈ es →
        ∃ r, convertLimitsToResources c limit = some r ∧ (k, r) ∈ res := by
  intro es
  induction es with
  | nil => intro acc res h k limit hm; cases hm
  | cons e rest ih =>
    intro acc res h k limit hm
    obtain ⟨k0, limit0⟩ := e
    simp only [loadEntries] at h
    cases hc : convertLimitsToResources c limit0 with
    | none => rw [hc] at h; cases h
    | some r0 =>
      rw [hc] at h
      rcases List.mem_cons.mp hm with heq | htl
      · have hk : k = k0 := congrArg Prod.fst heq
        have hl : limit = limit0 := congrArg Prod.snd heq
        subst hk
        subst hl
        exact ⟨r0, hc, loadEntries_acc_subset h _ (by simp)⟩
      · exact ih h k limit htl

theorem loadDoc_success {c c2 : Configurer} {config : Config}
    (h : loadDoc c config = (c2, true)) :
    ∃ c1 accN accM,
      applyGlobals c config = (c1, true) ∧
      loadEntries { c1 with excludedNamespaces := [], excludedNames := [] }
          config.Namespaces [] = (accN, true) ∧
      loadEntries { c1 with excludedNamespaces := accN, excludedNames := [] }
          config.Names [] = (accM, true) ∧
      c2 = { c1 with excludedNamespaces := accN, excludedNames := accM } := by
  unfold loadDoc at h
  split at h
  · exact absurd h (by simp)
  · rename_i c1 hg
    dsimp only at h
    split at h
    · exact absurd h (by simp)
    · rename_i accN hN
      split at h
      · exact absurd h (by simp)
      · rename_i accM hM
        exact ⟨c1, accN, accM, hg, hN, hM, (congrArg Prod.fst h).symm⟩

/-! ## C4 -/

/-- C4: after a successful load, every override entry of the document is
present in the corresponding table, its unset fields carrying the global
ceiling in effect at load time (the loaded generation's global, not "no
ceiling") and its set fields carrying their own parsed values. -/
theorem c4_inheritance (c c2 : Configurer) (config : Config)
    (h : load c (LoadInput.doc config) = (c2, true)) :
    (∀ ns limit, (ns, limit) ∈ config.Namespaces →
      ∃ r, (ns, r) ∈ c2.excludedNamespaces ∧
        (limit.CPULimit = QField.empty → r.CPULimit = c2.maxCPULimit) ∧
        (∀ q, limit.CPULimit = QField.valid q → r.CPULimit = some q) ∧
        (limit.MemLimit = QField.empty → r.MemLimit = c2.maxMemLimit) ∧
        (∀ q, limit.MemLimit = QField.valid q → r.MemLimit = some q) ∧
        (limit.PVCSize = QField.empty → r.PVCSize = c2.maxPvcSize) ∧
        (∀ q, limit.PVCSize = QField.valid q → r.PVCSize = some q)) ∧
    (∀ nn limit, (nn, limit) ∈ config.Names →
      ∃ r, (nn, r) ∈ c2.excludedNames ∧
        (limit.CPULimit = QField.empty → r.CPULimit = c2.maxCPULimit) ∧
        (∀ q, limit.CPULimit = QField.valid q → r.CPULimit = some q) ∧
        (limit.MemLimit = QField.empty → r.MemLimit = c2.maxMemLimit) ∧
        (∀ q, limit.MemLimit = QField.valid q → r.MemLimit = some q) ∧
        (limit.PVCSize = QField.empty → r.PVCSize = c2.maxPvcSize) ∧
        (∀ q, limit.PVCSize = QField.valid q → r.PVCSize = some q)) := by
  obtain ⟨c1, accN, accM, hg, hN, hM, hc2⟩ := loadDoc_success h
  subst hc2
  constructor
  · intro ns limit hmem
    obtain ⟨r, hr, hrmem⟩ := loadEntries_mem hN ns limit hmem
    have props := convertLimitsToResources_fields hr
    exact ⟨r, hrmem, props.1, props.2.1, props.2.2.1, props.2.2.2.1,
      props.2.2.2.2.1, props.2.2.2.2.2.1⟩
  · intro nn limit hmem
    obtain ⟨r, hr, hrmem⟩ := loadEntries_mem hM nn limit hmem
    have props := convertLimitsToResources_fields hr
    exact ⟨r, hrmem, props.1, props.2.1, props.2.2.1, props.2.2.2.1,
      props.2.2.2.2.1, props.2.2.2.2.2.1⟩

/-- A document with one namespace override setting only its CPU limit, and
a global memory limit of 4. -/
def c4doc : Config :=
  ⟨[("ns1", ⟨QField.valid 1, QField.empty, QField.empty, false⟩)], [],
   QField.empty, QField.valid 4, QField.empty⟩

/-- The state produced by loading `c4doc` into a fresh `Configurer`. -/
def c4loaded : Configurer :=
  ⟨[], [("ns1", ⟨some 1, some 4, none, false⟩)], none, some 4, none⟩

/-- C4 witness: the loaded namespace entry "ns1" carries its own CPU limit
and inherits the global memory limit for its unset memory field. -/
theorem c4_inheritance_witness :
    ∃ r, ("ns1", r) ∈ c4loaded.excludedNamespaces ∧
      ((⟨QField.valid 1, QField.empty, QField.empty, false⟩ : Limit).CPULimit = QField.empty →
        r.CPULimit = c4loaded.maxCPULimit) ∧
      (∀ q, (⟨QField.valid 1, QField.empty, QField.empty, false⟩ : Limit).CPULimit =
          QField.valid q → r.CPULimit = some q) ∧
      ((⟨QField.valid 1, QField.empty, QField.empty, false⟩ : Limit).MemLimit = QField.empty →
        r.MemLimit = c4loaded.maxMemLimit) ∧
      (∀ q, (⟨QField.valid 1, QField.empty, QField.empty, false⟩ : Limit).MemLimit =
          QField.valid q → r.MemLimit = some q) ∧
      ((⟨QField.valid 1, QField.empty, QField.empty, false⟩ : Limit).PVCSize = QField.empty →
        r.PVCSize = c4loaded.maxPvcSize) ∧
      (∀ q, (⟨QField.valid 1, QField.empty, QField.empty, false⟩ : Limit).PVCSize =
          QField.valid q → r.PVCSize = some q) :=
  (c4_inheritance confEmpty c4loaded c4doc (by decide)).1 "ns1"
    ⟨QField.valid 1, QField.empty, QField.empty, false⟩ (by decide)

/-! ## C8 (amended) -/

/-- C8 (amended): after a successful load, global fields stated by the
document are replaced with its parsed values, global fields the document
omits RETAIN the previous generation's values (they resolve to "no ceiling"
only if never set before), and the two override tables are rebuilt from the
document alone. -/
theorem c8_globals_amended (c c2 : Configurer) (config : Config)
    (h : load c (LoadInput.doc config) = (c2, true)) :
    (config.MaxCPULimit = QField.empty → c2.maxCPULimit = c.maxCPULimit) ∧
    (∀ q, config.MaxCPULimit = QField.valid q → c2.maxCPULimit = some q) ∧
    (config.MaxMemLimit = QField.empty → c2.maxMemLimit = c.maxMemLimit) ∧
    (∀ q, config.MaxMemLimit = QField.valid q → c2.maxMemLimit = some q) ∧
    (config.MaxPvcSize = QField.empty → c2.maxPvcSize = c.maxPvcSize) ∧
    (∀ q, config.MaxPvcSize = QField.valid q → c2.maxPvcSize = some q) ∧
    c2.excludedNamespaces = (loadEntries c2 config.Namespaces []).1 ∧
    c2.excludedNames = (loadEntries c2 config.Names []).1 := by
  obtain ⟨c1, accN, accM, hg, hN, hM, hc2⟩ := loadDoc_success h
  obtain ⟨_, _, e1, e2, e3, e4, e5, e6⟩ := applyGlobals_success hg
  subst hc2
  refine ⟨e1, e2, e3, e4, e5, e6, ?_, ?_⟩
  · rw [loadEntries_globals { c1 with excludedNamespaces := accN, excludedNames := accM }
      { c1 with excludedNamespaces := [], excludedNames := [] }
      rfl rfl rfl config.Namespaces [], hN]
  · rw [loadEntries_globals { c1 with excludedNamespaces := accN, excludedNames := accM }
      { c1 with excludedNamespaces := accN, excludedNames := [] }
      rfl rfl rfl config.Names [], hM]

/-- The state produced by loading `docCpu5` into a fresh `Configurer`. -/
def c8loaded : Configurer := ⟨[], [], some 5, none, none⟩

/-- C8 witness: loading a document that states CPU = 5 sets the global CPU
ceiling to 5, and its omitted memory field keeps the prior value. -/
theorem c8_globals_amended_witness :
    c8loaded.maxCPULimit = some 5 ∧ c8loaded.maxMemLimit = confEmpty.maxMemLimit :=
  ⟨(c8_globals_amended confEmpty c8loaded docCpu5 (by decide)).2.1 5 rfl,
   (c8_globals_amended confEmpty c8loaded docCpu5 (by decide)).2.2.1 rfl⟩

/-! ## C9 lemmas -/

theorem longestSplit_cons (p : List Char → Bool) (c : Char) (rest : List Char) :
    longestSplit p (c :: rest) =
      match longestSplit p rest with
      | some stem => some (c :: stem)
      | none => if p (c :: rest) then some [] else none := rfl

theorem ne_dash_of_alnum {a : Char} (h : isAlnumChar a = true) : ¬(a = '-') := by
  intro he
  subst he
  exact absurd h (by decide)

theorem twoSegAt_ne_dash {a : Char} (l : List Char) (h : ¬(a = '-')) :
    twoSegAt (a :: l) = false := by
  cases l with
  | nil => rfl
  | cons b r => simp [twoSegAt, h]

theorem oneSegAt_ne_dash {a : Char} (l : List Char) (h : ¬(a = '-')) :
    oneSegAt (a :: l) = false := by
  cases l with
  | nil => rfl
  | cons b r => simp [oneSegAt, h]

theorem dropWhile_alnum_all {seg : List Char} (h : seg.all isAlnumChar = true) :
    seg.dropWhile isAlnumChar = [] := by
  induction seg with
  | nil => rfl
  | cons a r ih =>
    simp only [List.all_cons, Bool.and_eq_true] at h
    simp [List.dropWhile_cons, h.1, ih h.2]

theorem dropWhile_alnum_append (seg rest : List Char) (h : seg.all isAlnumChar = true) :
    (seg ++ '-' :: rest).dropWhile isAlnumChar = '-' :: rest := by
  induction seg with
  | nil => simp [List.dropWhile_cons, (by decide : isAlnumChar '-' = false)]
  | cons a r ih =>
    simp only [List.all_cons, Bool.and_eq_true] at h
    simp [List.dropWhile_cons, h.1, ih h.2]

theorem twoSegAt_dash_allAlnum {seg : List Char} (h : seg.all isAlnumChar = true) :
    twoSegAt ('-' :: seg) = false := by
  cases seg with
  | nil => rfl
  | cons a r =>
    have hd : (a :: r).dropWhile isAlnumChar = [] := dropWhile_alnum_all h
    simp [twoSegAt, hd]

theorem longestSplit_two_allAlnum {seg : List Char} (h : seg.all isAlnumChar = true) :
    longestSplit twoSegAt seg = none := by
  induction seg with
  | nil => rfl
  | cons a r ih =>
    simp only [List.all_cons, Bool.and_eq_true] at h
    rw [longestSplit_cons, ih h.2, twoSegAt_ne_dash r (ne_dash_of_alnum h.1)]
    rfl

theorem longestSplit_one_allAlnum {seg : List Char} (h : seg.all isAlnumChar = true) :
    longestSplit oneSegAt seg = none := by
  induction seg with
  | nil => rfl
  | cons a r ih =>
    simp only [List.all_cons, Bool.and_eq_true] at h
    rw [longestSplit_cons, ih h.2, oneSegAt_ne_dash r (ne_dash_of_alnum h.1)]
    rfl

theorem longestSplit_two_after_dash {seg : List Char} (h : seg.all isAlnumChar = true) :
    longestSplit twoSegAt ('-' :: seg) = none := by
  rw [longestSplit_cons, longestSplit_two_allAlnum h, twoSegAt_dash_allAlnum h]
  rfl

theorem longestSplit_two_oneSegTail {seg1 seg2 : List Char}
    (h1 : seg1.all isAlnumChar = true) (h2 : seg2.all isAlnumChar = true) :
    longestSplit twoSegAt (seg1 ++ ('-' :: seg2)) = none := by
  induction seg1 with
  | nil => exact longestSplit_two_after_dash h2
  | cons a r ih =>
    simp only [List.all_cons, Bool.and_eq_true] at h1
    rw [List.cons_append, longestSplit_cons, ih h1.2,
      twoSegAt_ne_dash _ (ne_dash_of_alnum h1.1)]
    rfl

theorem twoSegAt_full {seg1 seg2 : List Char} (h1 : seg1.all isAlnumChar = true)
    (hn1 : seg1 ≠ []) (h2 : seg2.all isAlnumChar = true) (hn2 : seg2 ≠ []) :
    twoSegAt ('-' :: (seg1 ++ ('-' :: seg2))) = true := by
  cases seg1 with
  | nil => exact absurd rfl hn1
  | cons a r =>
    cases seg2 with
    | nil => exact absurd rfl hn2
    | cons b s =>
      have hd : (a :: (r ++ '-' :: (b :: s))).dropWhile isAlnumChar = '-' :: b :: s :=
        dropWhile_alnum_append (a :: r) (b :: s) h1
      simp only [List.all_cons, Bool.and_eq_true] at h1 h2
      simp [twoSegAt, hd, h1.1, h2.1]

theorem longestSplit_two_main (stem seg1 seg2 : List Char)
    (h1 : seg1.all isAlnumChar = true) (hn1 : seg1 ≠ [])
    (h2 : seg2.all isAlnumChar = true) (hn2 : seg2 ≠ []) :
    longestSplit twoSegAt (stem ++ ('-' :: (seg1 ++ ('-' :: seg2)))) = some stem := by
  induction stem with
  | nil =>
    rw [List.nil_append, longestSplit_cons, longestSplit_two_oneSegTail h1 h2,
      twoSegAt_full h1 hn1 h2 hn2]
    rfl
  | cons a r ih =>
    rw [List.cons_append, longestSplit_cons, ih]

theorem longestSplit_two_dashFree (stem seg : List Char)
    (hstem : ∀ a ∈ stem, ¬(a = '-')) (hseg : seg.all isAlnumChar = true) :
    longestSplit twoSegAt (stem ++ ('-' :: seg)) = none := by
  induction stem with
  | nil => exact longestSplit_two_after_dash hseg
  | cons a r ih =>
    rw [List.cons_append, longestSplit_cons,
      ih (fun x hx => hstem x (List.mem_cons_of_mem a hx)),
      twoSegAt_ne_dash _ (hstem a (List.mem_cons_self a r))]
    rfl

theorem longestSplit_one_main (stem seg : List Char)
    (hstem : ∀ a ∈ stem, ¬(a = '-')) (hseg : seg.all isAlnumChar = true) (hn : seg ≠ []) :
    longestSplit oneSegAt (stem ++ ('-' :: seg)) = some stem := by
  induction stem with
  | nil =>
    cases seg with
    | nil => exact absurd rfl hn
    | cons b s =>
      have hb : isAlnumChar b = true := by
        simp only [List.all_cons, Bool.and_eq_true] at hseg
        exact hseg.1
      rw [List.nil_append, longestSplit_cons, longestSplit_one_allAlnum hseg]
      simp [oneSegAt, hb]
  | cons a r ih =>
    rw [List.cons_append, longestSplit_cons,
      ih (fun x hx => hstem x (List.mem_cons_of_mem a hx))]

/-- C9: before override lookup the pod name is normalized by stripping a
suffix of two dash-delimited alphanumeric segments (the greedy group-1
capture of `podIDRegex`), falling back to a single trailing dash-delimited
alphanumeric segment (`podID2Regex`); hence a pod named
"myapp-7d9f8c6b5-x2z4k" receives the same admission treatment as one named
"myapp" in the same namespace under the same configuration. -/
theorem c9_name_strip :
    (∀ stem seg1 seg2 : List Char,
       seg1.all isAlnumChar = true → seg1 ≠ [] →
       seg2.all isAlnumChar = true → seg2 ≠ [] →
       stripPodName ⟨stem ++ ('-' :: (seg1 ++ ('-' :: seg2)))⟩ = ⟨stem⟩) ∧
    (∀ stem seg : List Char,
       (∀ a ∈ stem, ¬(a = '-')) → seg.all isAlnumChar = true → seg ≠ [] →
       stripPodName ⟨stem ++ ('-' :: seg)⟩ = ⟨stem⟩) ∧
    (∀ (conf : Configurer) (uid ns : String) (op : Operation) (spec : PodSpec),
       handleAdmission conf ⟨uid, op, ns,
         ReqObject.workload WorkloadKind.pod "myapp-7d9f8c6b5-x2z4k" spec⟩ =
       handleAdmission conf ⟨uid, op, ns,
         ReqObject.workload WorkloadKind.pod "myapp" spec⟩) := by
  refine ⟨?_, ?_, ?_⟩
  · intro stem seg1 seg2 h1 hn1 h2 hn2
    show (match longestSplit twoSegAt (stem ++ ('-' :: (seg1 ++ ('-' :: seg2)))) with
      | some s => (⟨s⟩ : String)
      | none =>
        match longestSplit oneSegAt (stem ++ ('-' :: (seg1 ++ ('-' :: seg2)))) with
        | some s => (⟨s⟩ : String)
        | none => ⟨stem ++ ('-' :: (seg1 ++ ('-' :: seg2)))⟩) = ⟨stem⟩
    rw [longestSplit_two_main stem seg1 seg2 h1 hn1 h2 hn2]
  · intro stem seg hstem hseg hn
    show (match longestSplit twoSegAt (stem ++ ('-' :: seg)) with
      | some s => (⟨s⟩ : String)
      | none =>
        match longestSplit oneSegAt (stem ++ ('-' :: seg)) with
        | some s => (⟨s⟩ : String)
        | none => ⟨stem ++ ('-' :: seg)⟩) = ⟨stem⟩
    rw [longestSplit_two_dashFree stem seg hstem hseg,
      longestSplit_one_main stem seg hstem hseg hn]
  · intro conf uid ns op spec
    have h1 : stripPodName "myapp-7d9f8c6b5-x2z4k" = "myapp" := by decide
    have h2 : stripPodName "myapp" = "myapp" := by decide
    simp [handleAdmission, workloadLookupName, h1, h2]

/-- C9 witness: the generated suffix of "myapp-7d9f8c6b5-x2z4k" is stripped
to the stem "myapp", and the two names get the same decision on a concrete
configuration. -/
theorem c9_name_strip_witness :
    stripPodName "myapp-7d9f8c6b5-x2z4k" = "myapp" ∧
    handleAdmission confLayered
      ⟨"u", Operation.create, "n",
        ReqObject.workload WorkloadKind.pod "myapp-7d9f8c6b5-x2z4k" demoSpec⟩ =
    handleAdmission confLayered
      ⟨"u", Operation.create, "n",
        ReqObject.workload WorkloadKind.pod "myapp" demoSpec⟩ :=
  ⟨c9_name_strip.1 "myapp".data "7d9f8c6b5".data "x2z4k".data
      (by decide) (by decide) (by decide) (by decide),
   c9_name_strip.2.2 confLayered "u" "n" Operation.create demoSpec⟩

end RRAC
